import Mathlib

/-!
Verification of the KV-Illustrations Figma SVG export pipeline.

This file gives a shallow embedding of the pure core of the repository's
Python code and proves the specification claims about it:

* `ChangeDetector.detect_changes` / `_save_cache` / `_load_cache`
  (src/server/services/change_detector.py and the scripts exporter
  src/scripts/01-figma-enhanced-svg-exporter-v2.0.py),
* `ChangeDetector.apply_naming_filters` / `_matches_pattern`,
* `NodeIdConverter.get_alternative_formats` and
  `FigmaNodeResolver.resolve_node_with_fallbacks`
  (src/server/utils/node_id_converter.py),
* `DevReadyDetector._determine_status` / `_check_naming_convention`
  (src/server/services/dev_ready_detector.py),
* `sanitize_filename` (src/server/utils/helpers.py and
  FigmaAPIClient.sanitize_filename in src/server/services/figma_sync.py).

Embedding conventions:
* Python `dict` values are embedded as association lists; a dict built by a
  comprehension (last write wins) is embedded as the reversed list of
  insertions so that first-match lookup returns the dict's value, and every
  use of the key set goes through `List.dedup`, matching Python's `set()`
  of the (duplicate-free) dict keys.
* Python `set` iteration order is unspecified; all statements proved about
  code that iterates a set are order-independent (memberships and counts),
  and list-valued dedup results are abstracted by a membership hypothesis.
* Floats appearing in the relevant code paths (scores, widths) are embedded
  as rationals; no rounding behaviour is relied on by any claim.
* Strings are handled at the code-point (`Char`) level; the ASCII fragment
  of Python's `str.lower` and of the `\d` regex class is used, which covers
  every keyword, pattern and literal in the claims.
-/

/-- `NodeStatus` enum from change_detector.py (development status). -/
inductive NodeStatus where
  | draft
  | review
  | approved
  | ready
  | unknown
deriving DecidableEq, Repr

/-- `.value` of a `NodeStatus` member, as stored in the cache file. -/
def NodeStatus.value : NodeStatus → String
  | .draft => "draft"
  | .review => "review"
  | .approved => "approved"
  | .ready => "ready"
  | .unknown => "unknown"

/-- `ChangeStatus` enum from change_detector.py. -/
inductive ChangeStatus where
  | new
  | modified
  | unchanged
  | deleted
deriving DecidableEq, Repr

/-- One element of the `current_nodes` list handed to
`ChangeDetector.detect_changes`: a Figma node dictionary.  `width`/`height`
stand for the geometry the respective caller reads (`"width"`/`"height"`
keys in the server service, `absoluteBoundingBox` in the scripts exporter)
with the `.get(..., 0)` default already applied; `lastModified` is the
optional `"lastModified"` key and `version` the `"version"` key with
default 0. -/
structure NodeData where
  id : String
  name : String
  type : String
  width : ℚ
  height : ℚ
  lastModified : Option String
  version : Int
  path : String
  depth : Nat
deriving DecidableEq, Repr

/-- One value of the `"nodes"` dict in the cache file, as written by
`ChangeDetector._save_cache`. -/
structure CachedNode where
  name : String
  last_modified : Option String
  version : Int
  exported_at : Option String
  dev_ready_score : ℚ
  status : String
  svg_size : Option Int
deriving DecidableEq, Repr

/-- The cache file contents (`self.last_export_data`): a `"nodes"` dict
embedded as an association list, plus `"last_export"` and
`"file_version"`. -/
structure CacheData where
  nodes : List (String × CachedNode)
  last_export : Option String
  file_version : Option String
deriving DecidableEq, Repr

/-- Python `dict.get(key)` on the embedded association list (first match;
the embedding keeps at most one binding per key live, see `save_cache`). -/
def dictGet (l : List (String × CachedNode)) (k : String) : Option CachedNode :=
  (l.find? (fun p => p.1 == k)).map (·.2)

/-- The `NodeInfo` dataclass shared by both change detectors. -/
structure NodeInfo where
  id : String
  name : String
  type : String
  width : ℚ
  height : ℚ
  last_modified : Option String
  version : Int
  path : String
  depth : Nat
  status : NodeStatus
  change_status : ChangeStatus
  dev_ready_score : ℚ
  issues : List String
  exported_at : Option String := none
  svg_size : Option Int := none
deriving DecidableEq, Repr

/-- The per-node classification step of `detect_changes` (identical in both
versions): look the id up in the cached `"nodes"` dict; a missing entry
leaves `ChangeStatus.NEW`; a present entry compares
`(lastModified, version)` against `(last_modified, version)` of the cached
entry.  (An entry written by `_save_cache` is a non-empty dict, so the
`if cached_node:` truthiness test in the source is exactly presence.) -/
def classifyNode (cache : CacheData) (d : NodeData) : ChangeStatus :=
  match dictGet cache.nodes d.id with
  | none => ChangeStatus.new
  | some c =>
      if d.lastModified = c.last_modified ∧ d.version = c.version then
        ChangeStatus.unchanged
      else
        ChangeStatus.modified

/-- The `NodeInfo` built for a current node by the server
`ChangeDetector.detect_changes` (path/depth taken from the node dict). -/
def mkInfoServer (cache : CacheData) (d : NodeData) : NodeInfo :=
  { id := d.id, name := d.name, type := d.type, width := d.width,
    height := d.height, last_modified := d.lastModified,
    version := d.version, path := d.path, depth := d.depth,
    status := NodeStatus.unknown, change_status := classifyNode cache d,
    dev_ready_score := 0, issues := [] }

/-- The `NodeInfo` built for a current node by the scripts exporter's
`ChangeDetector.detect_changes` (path `""` and depth 0, to be set later). -/
def mkInfoScripts (cache : CacheData) (d : NodeData) : NodeInfo :=
  { id := d.id, name := d.name, type := d.type, width := d.width,
    height := d.height, last_modified := d.lastModified,
    version := d.version, path := "", depth := 0,
    status := NodeStatus.unknown, change_status := classifyNode cache d,
    dev_ready_score := 0, issues := [] }

/-- `cached_node_ids - current_node_ids`: the cached ids (deduplicated, as
Python's `set(dict.keys())` is) with no corresponding current node, in cache
order (Python iterates this set in unspecified order; every property proved
about it is order-independent). -/
def deletedKeys (cache : CacheData) (currentIds : List String) : List String :=
  ((cache.nodes.map Prod.fst).dedup).filter (fun k => !(currentIds.contains k))

/-- The synthesized record for a deleted node in the scripts exporter:
geometry zeroed, `type` forced to the literal `"DELETED"`, name and version
carried over from the cache (the `.getD` default is unreachable: the key
comes from the cache's key set). -/
def mkDeletedInfo (cache : CacheData) (k : String) : NodeInfo :=
  let c := (dictGet cache.nodes k).getD
    { name := "", last_modified := none, version := 0, exported_at := none,
      dev_ready_score := 0, status := "", svg_size := none }
  { id := k, name := c.name, type := "DELETED", width := 0, height := 0,
    last_modified := none, version := c.version, path := "", depth := 0,
    status := NodeStatus.unknown, change_status := ChangeStatus.deleted,
    dev_ready_score := 0, issues := ["Node deleted from Figma"] }

/-- The statistics dict `changes_stats`. -/
structure Stats where
  new : Nat
  modified : Nat
  unchanged : Nat
  deleted : Nat
deriving DecidableEq, Repr

/-- The dict value `_save_cache` writes for one node. -/
def cacheEntryOf (n : NodeInfo) : CachedNode :=
  { name := n.name, last_modified := n.last_modified,
    version := n.version, exported_at := n.exported_at,
    dev_ready_score := n.dev_ready_score, status := n.status.value,
    svg_size := n.svg_size }

/-- `ChangeDetector._save_cache` (identical in both versions): rebuild the
`"nodes"` dict from the node list (dict comprehension, so a later node with
the same id overwrites an earlier one: embedded as the reversed insertion
list under first-match lookup), and stamp `last_export` with the wall clock
(passed here as the explicit argument `now`). -/
def save_cache (nodes : List NodeInfo) (file_version : String)
    (now : String) : CacheData :=
  { nodes := nodes.reverse.map (fun n => (n.id, cacheEntryOf n)),
    last_export := some now,
    file_version := some file_version }

/-- The server `ChangeDetector.detect_changes` (change_detector.py lines
100-153): classify every current node, count the classifications, and set
`deleted` to the size of the cached-minus-current id set difference.  It
neither synthesizes DELETED records nor writes the cache; its
`file_version` parameter is unused. -/
def detect_changes_server (cache : CacheData) (current_nodes : List NodeData)
    (_file_version : String) : List NodeInfo × Stats :=
  let updated := current_nodes.map (mkInfoServer cache)
  let stats : Stats :=
    { new := updated.countP (fun n => n.change_status == ChangeStatus.new),
      modified := updated.countP (fun n => n.change_status == ChangeStatus.modified),
      unchanged := updated.countP (fun n => n.change_status == ChangeStatus.unchanged),
      deleted := (deletedKeys cache (current_nodes.map (·.id))).length }
  (updated, stats)

/-- The scripts exporter's `ChangeDetector.detect_changes` (lines 151-226):
classify every current node, append one synthesized record per deleted
cached id, count everything, and persist the updated node set to the cache
file before returning (the returned `CacheData` is the file contents written
by the final `self._save_cache(updated_nodes, file_version)`). -/
def detect_changes_scripts (cache : CacheData) (current_nodes : List NodeData)
    (file_version : String) (now : String) :
    List NodeInfo × Stats × CacheData :=
  let infos := current_nodes.map (mkInfoScripts cache)
  let dIds := deletedKeys cache (current_nodes.map (·.id))
  let updated := infos ++ dIds.map (mkDeletedInfo cache)
  let stats : Stats :=
    { new := infos.countP (fun n => n.change_status == ChangeStatus.new),
      modified := infos.countP (fun n => n.change_status == ChangeStatus.modified),
      unchanged := infos.countP (fun n => n.change_status == ChangeStatus.unchanged),
      deleted := dIds.length }
  (updated, stats, save_cache updated file_version now)

/-- The possible states of the cache file as seen by
`ChangeDetector._load_cache`: absent, present but unreadable (`open` or
read raises), present but malformed (`json.load` raises), or readable with
parsed contents. -/
inductive CacheFileState where
  | missing
  | unreadable
  | malformed
  | ok (data : CacheData)

/-- `ChangeDetector._load_cache` (identical in both versions): any failure
path prints a warning and falls through to the empty cache
`{"nodes": {}, "last_export": None, "file_version": None}`; no exception
escapes. -/
def load_cache : CacheFileState → CacheData
  | .ok data => data
  | _ => { nodes := [], last_export := none, file_version := none }

/-- The empty cache returned on every `_load_cache` failure path. -/
def emptyCache : CacheData :=
  { nodes := [], last_export := none, file_version := none }

/-! ## Pattern filtering (`apply_naming_filters` / `_matches_pattern`) -/

/-- The ASCII fragment of Python's `str.lower` / `re.IGNORECASE` case
folding: `A`-`Z` map 32 code points up, everything else is fixed.  Every
keyword, pattern and name in the claims is ASCII. -/
def lowerChar (c : Char) : Char :=
  if 65 ≤ c.toNat ∧ c.toNat ≤ 90 then Char.ofNat (c.toNat + 32) else c

/-- `str.lower` on a whole string (ASCII fragment). -/
def lowerStr (s : String) : String :=
  ⟨s.data.map lowerChar⟩

/-- Matching of the regex `pattern.replace('*', '.*').replace('?', '.')`
under `re.match`, i.e. anchored at the START of the text only: the pattern
has to match some prefix of the text.  `*` matches any sequence, `?` any
single character, and every other pattern character matches itself — the
faithful semantics for patterns containing no regex metacharacter other
than `*` and `?` (such patterns also never raise the `re.error` that the
source swallows). -/
def wMatchFromStart : List Char → List Char → Bool
  | [], _ => true
  | '*' :: ps, t => t.tails.any (fun s => wMatchFromStart ps s)
  | _ :: _, [] => false
  | c :: ps, d :: ts => (c == '?' || c == d) && wMatchFromStart ps ts

/-- Fully anchored (`^...$`) wildcard matching: glob-style matching of the
whole name, as the spec's words describe the pattern filter. -/
def wMatchFull : List Char → List Char → Bool
  | [], t => t.isEmpty
  | '*' :: ps, t => t.tails.any (fun s => wMatchFull ps s)
  | _ :: _, [] => false
  | c :: ps, d :: ts => (c == '?' || c == d) && wMatchFull ps ts

/-- Case normalization applied by the `flags = 0 if case_sensitive else
re.IGNORECASE` line: with `case_sensitive = false` both pattern and text
are compared case-folded. -/
def normChars (case_sensitive : Bool) (s : String) : List Char :=
  if case_sensitive then s.data else s.data.map lowerChar

/-- `ChangeDetector._matches_pattern`: true iff the name matches at least
one of the wildcard patterns under start-anchored `re.match`. -/
def matches_pattern (name : String) (patterns : List String)
    (case_sensitive : Bool) : Bool :=
  patterns.any (fun p =>
    wMatchFromStart (normChars case_sensitive p) (normChars case_sensitive name))

/-- The `filters` dict handed to `apply_naming_filters`, with the
`.get(..., [])` / `.get(..., False)` defaults already applied.  (A missing
or empty `filters` dict makes the source return the nodes unfiltered, which
coincides with both pattern lists being empty.) -/
structure Filters where
  include_patterns : List String
  exclude_patterns : List String
  case_sensitive : Bool
deriving Repr

/-- `ChangeDetector.apply_naming_filters` (change_detector.py lines
155-198): skip a node when include patterns exist and none matches, skip it
when some exclude pattern matches, keep it otherwise; order is preserved. -/
def apply_naming_filters (nodes : List NodeInfo) (filters : Filters) :
    List NodeInfo :=
  nodes.filter (fun node =>
    !(!filters.include_patterns.isEmpty &&
        !matches_pattern node.name filters.include_patterns filters.case_sensitive) &&
    !(!filters.exclude_patterns.isEmpty &&
        matches_pattern node.name filters.exclude_patterns filters.case_sensitive))

/-- Modelled from the spec's words, for the refinement comparison with
`apply_naming_filters`: keep a node iff (no include patterns, or the whole
name matches some include pattern glob-style) and the whole name matches no
exclude pattern. -/
def globKeepSpec (name : String) (incl excl : List String)
    (case_sensitive : Bool) : Bool :=
  (incl.isEmpty ||
    incl.any (fun p =>
      wMatchFull (normChars case_sensitive p) (normChars case_sensitive name))) &&
  !(excl.any (fun p =>
      wMatchFull (normChars case_sensitive p) (normChars case_sensitive name)))

/-- Modelled from the spec's words: the filter the claim describes, i.e.
the in-order sublist of nodes kept by `globKeepSpec`. -/
def apply_filters_globSpec (nodes : List NodeInfo) (incl excl : List String)
    (case_sensitive : Bool) : List NodeInfo :=
  nodes.filter (fun node => globKeepSpec node.name incl excl case_sensitive)

/-! ## Dev-ready status (`DevReadyDetector`) -/

/-- Python's substring test `needle in hay`. -/
def isSubstring (needle hay : List Char) : Bool :=
  hay.tails.any (fun t => needle.isPrefixOf t)

/-- `self.wip_keywords` from `DevReadyDetector.__init__`. -/
def wip_keywords : List String :=
  ["wip", "draft", "temp", "test", "placeholder"]

/-- `self.approved_keywords` from `DevReadyDetector.__init__`. -/
def approved_keywords : List String :=
  ["approved", "ready", "final", "production"]

/-- `any(keyword in name_lower for keyword in kws)`. -/
def hasKeyword (name_lower : String) (kws : List String) : Bool :=
  kws.any (fun kw => isSubstring kw.data name_lower.data)

/-- `DevReadyDetector._determine_status` (dev_ready_detector.py lines
151-170): approved keywords are checked first, then WIP keywords, then the
0.9 / 0.8 / 0.6 score thresholds.  Scores are rationals in the embedding;
the thresholds 0.9, 0.8, 0.6 are exact in both binary floats' comparisons
here and in ℚ for the comparisons the claims make. -/
def determine_status (name : String) (score : ℚ) : NodeStatus :=
  if hasKeyword (lowerStr name) approved_keywords then
    if score ≥ 8/10 then NodeStatus.approved else NodeStatus.review
  else if hasKeyword (lowerStr name) wip_keywords then
    NodeStatus.draft
  else if score ≥ 9/10 then NodeStatus.ready
  else if score ≥ 8/10 then NodeStatus.approved
  else if score ≥ 6/10 then NodeStatus.review
  else NodeStatus.draft

/-- Python `str.split(sep)` for a one-character separator, on code points:
always at least one (possibly empty) part. -/
def splitOnChar (sep : Char) (l : List Char) : List (List Char) :=
  l.foldr
    (fun c acc =>
      if c = sep then [] :: acc
      else
        match acc with
        | [] => [[c]]
        | a :: as => (c :: a) :: as)
    [[]]

/-- Matching of a Python regex of the form `^core$` under `re.match`: `$`
accepts the very end of the string and also a position just before one
trailing newline. -/
def pyFullMatch (core : List Char → Bool) (l : List Char) : Bool :=
  core l ||
    (match l.getLast? with
     | some c => c == '\n' && core l.dropLast
     | none => false)

/-- `[a-z0-9]`. -/
def isLowerAlnum (c : Char) : Bool :=
  ('a' ≤ c && c ≤ 'z') || ('0' ≤ c && c ≤ '9')

/-- The body of the kebab-case regex `^[a-z0-9]+(-[a-z0-9]+)*$`: one or
more nonempty `[a-z0-9]` groups joined by single dashes, i.e. splitting on
`-` gives only nonempty all-lower-alphanumeric parts. -/
def kebabCore (l : List Char) : Bool :=
  (splitOnChar '-' l).all (fun p => !p.isEmpty && p.all isLowerAlnum)

/-- `self.naming_pattern.match(s) is not None` for the compiled kebab-case
regex `^[a-z0-9]+(-[a-z0-9]+)*$`. -/
def kebabMatch (s : String) : Bool :=
  pyFullMatch kebabCore s.data

/-- `DevReadyDetector._check_naming_convention` (lines 59-61): the name is
LOWERCASED first, then matched against the kebab-case regex. -/
def check_naming_convention (name : String) : Bool :=
  kebabMatch (lowerStr name)

/-! ## Filename sanitization (`sanitize_filename`) -/

/-- `invalid_chars = '<>:"/\\|?*'`. -/
def invalid_chars : List Char :=
  ['<', '>', ':', '"', '/', '\\', '|', '?', '*']

/-- Membership in `[-_]`. -/
def isDashUnd (c : Char) : Bool :=
  c == '-' || c == '_'

/-- `re.sub(r"[-_]+", "-", name)`: every maximal run of `-`/`_` becomes a
single `-`. -/
def collapseDashRuns : List Char → List Char
  | [] => []
  | [c] => if isDashUnd c then ['-'] else [c]
  | c :: d :: rest =>
    if isDashUnd c then
      (if isDashUnd d then collapseDashRuns (d :: rest)
       else '-' :: collapseDashRuns (d :: rest))
    else c :: collapseDashRuns (d :: rest)

/-- Python `str.strip(chars)`. -/
def stripChars (p : Char → Bool) (l : List Char) : List Char :=
  ((l.dropWhile p).reverse.dropWhile p).reverse

/-- Python `str.rstrip(chars)`. -/
def rstripChars (p : Char → Bool) (l : List Char) : List Char :=
  (l.reverse.dropWhile p).reverse

/-- The final steps of `sanitize_filename`: truncate to 100 characters
(re-stripping a dash/underscore cut open by the truncation) and fall back
to the literal `"unnamed"` when empty. -/
def sanitizeTrunc (l4 : List Char) : String :=
  let l5 := if l4.length > 100 then rstripChars isDashUnd (l4.take 100) else l4
  if l5.isEmpty then "unnamed" else ⟨l5⟩

/-- `sanitize_filename` (identical in src/server/utils/helpers.py lines
31-51 and FigmaAPIClient.sanitize_filename, figma_sync.py lines 222-242):
replace the invalid characters by `_`, lowercase, turn spaces into dashes,
collapse `-`/`_` runs (which also turns the `_` replacements into `-`),
strip `-`/`_` at both ends, then `sanitizeTrunc`. -/
def sanitize_filename (name : String) : String :=
  sanitizeTrunc (stripChars isDashUnd (collapseDashRuns
    (((name.data.map (fun c => if invalid_chars.contains c then '_' else c)).map
        lowerChar).map (fun c => if c = ' ' then '-' else c))))

/-! ## Node-id formats and the fallback resolver (`node_id_converter.py`) -/

/-- The four entries of `NodeIdConverter.FORMATS`, in dict (insertion)
order. -/
inductive FigmaIdFormat where
  | dash_format
  | colon_format
  | full_path
  | page_node
deriving DecidableEq, Repr

/-- Body of `^\d+-\d+$` (ASCII digits): exactly two nonempty digit groups
around one dash. -/
def dashFormatCore (l : List Char) : Bool :=
  match splitOnChar '-' l with
  | [a, b] => !a.isEmpty && !b.isEmpty && a.all Char.isDigit && b.all Char.isDigit
  | _ => false

/-- Body of `^\d+:\d+$` (used by both `colon_format` and `page_node`). -/
def colonFormatCore (l : List Char) : Bool :=
  match splitOnChar ':' l with
  | [a, b] => !a.isEmpty && !b.isEmpty && a.all Char.isDigit && b.all Char.isDigit
  | _ => false

/-- Body of `^\d+(:\d+)+$`: at least two nonempty colon-separated digit
groups. -/
def fullPathCore (l : List Char) : Bool :=
  let parts := splitOnChar ':' l
  decide (2 ≤ parts.length) &&
    parts.all (fun p => !p.isEmpty && p.all Char.isDigit)

/-- `NodeIdConverter.detect_format`: first matching entry of `FORMATS` in
dict order.  `page_node` has the same pattern as `colon_format` and is
tested after it, so it is never the result. -/
def detect_format (node_id : String) : Option FigmaIdFormat :=
  if pyFullMatch dashFormatCore node_id.data then some FigmaIdFormat.dash_format
  else if pyFullMatch colonFormatCore node_id.data then some FigmaIdFormat.colon_format
  else if pyFullMatch fullPathCore node_id.data then some FigmaIdFormat.full_path
  else none

/-- `NodeIdConverter.convert_dash_to_colon`: `node_id.replace("-", ":")`,
only when the id is in dash format. -/
def convert_dash_to_colon (node_id : String) : String :=
  if detect_format node_id = some FigmaIdFormat.dash_format then
    ⟨node_id.data.map (fun c => if c = '-' then ':' else c)⟩
  else node_id

/-- `NodeIdConverter.convert_colon_to_dash`: `node_id.replace(":", "-")`,
only when the id is in colon format. -/
def convert_colon_to_dash (node_id : String) : String :=
  if detect_format node_id = some FigmaIdFormat.colon_format then
    ⟨node_id.data.map (fun c => if c = ':' then '-' else c)⟩
  else node_id

/-- `NodeIdConverter.get_alternative_formats` up to the final
`list(set(alternatives))`: the original id, the opposite-punctuation form
when the id is in dash or colon format, the parent path (dropping the last
`:`-segment) when the ORIGINAL id contains a colon, and `"0:1"` when not
already present.  The source's trailing `list(set(...))` deduplicates in
unspecified hash order; it preserves exactly the membership of this list,
which is all the statements below use. -/
def get_alternative_formats (node_id : String) : List String :=
  let alternatives := [node_id]
  let alternatives := alternatives ++
    (match detect_format node_id with
     | some FigmaIdFormat.dash_format => [convert_dash_to_colon node_id]
     | some FigmaIdFormat.colon_format => [convert_colon_to_dash node_id]
     | _ => [])
  let alternatives := alternatives ++
    (if node_id.data.contains ':' then
      (let parts := splitOnChar ':' node_id.data
       if 1 < parts.length then
         [⟨List.intercalate [':'] parts.dropLast⟩]
       else [])
     else [])
  alternatives ++ (if alternatives.contains "0:1" then [] else ["0:1"])

/-- The sequential try loop of
`FigmaNodeResolver.resolve_node_with_fallbacks`: `fetch` stands for
`await self.api_client.get_node_structure(file_key, ·)`, with `none`
covering both a raised exception (swallowed by the `except` branch) and a
falsy result; the first success is returned together with the id that
produced it (the `"resolved_id"` of the result dict). -/
def tryAttempts (fetch : String → Option α) : List String → Option (String × α)
  | [] => none
  | a :: rest =>
    match fetch a with
    | some d => some (a, d)
    | none => tryAttempts fetch rest

/-- `FigmaNodeResolver.resolve_node_with_fallbacks` (node_id_converter.py
lines 133-171), with the candidate list (the source's
`list(set(get_alternative_formats(node_id)))`, in its unspecified hash
order) passed explicitly: cap at `max_attempts` candidates, try each in
order, return the first success, `none` when all fail. -/
def resolve_node_with_fallbacks (fetch : String → Option α)
    (candidates : List String) (max_attempts : Nat) : Option (String × α) :=
  tryAttempts fetch (candidates.take max_attempts)

/-! ## Helper lemmas -/

theorem charOfNat_toNat_shift (n : Nat) (h1 : 65 ≤ n) (h2 : n ≤ 90) :
    (Char.ofNat (n + 32)).toNat = n + 32 := by
  interval_cases n <;> decide

theorem lowerChar_cases (c : Char) :
    (97 ≤ (lowerChar c).toNat ∧ (lowerChar c).toNat ≤ 122) ∨
      (lowerChar c = c ∧ ¬(65 ≤ c.toNat ∧ c.toNat ≤ 90)) := by
  unfold lowerChar
  split
  · rename_i h
    left
    have hv := charOfNat_toNat_shift c.toNat h.1 h.2
    omega
  · rename_i h
    exact Or.inr ⟨rfl, h⟩

theorem lowerChar_not_upper (c : Char) :
    ¬(65 ≤ (lowerChar c).toNat ∧ (lowerChar c).toNat ≤ 90) := by
  rcases lowerChar_cases c with ⟨h1, h2⟩ | ⟨he, hns⟩
  · omega
  · rw [he]; exact hns

theorem lowerChar_not_invalid {c : Char} (h : c ∉ invalid_chars) :
    lowerChar c ∉ invalid_chars := by
  rcases lowerChar_cases c with ⟨h1, h2⟩ | ⟨he, _⟩
  · intro hm
    simp only [invalid_chars, List.mem_cons, List.not_mem_nil, or_false] at hm
    rcases hm with h' | h' | h' | h' | h' | h' | h' | h' | h' <;>
      rw [h'] at h1 h2 <;> revert h1 h2 <;> decide
  · rw [he]; exact h

/-! ## Claim theorems: dev-ready status -/

/-- C7: for every node name and score, `_determine_status` returns APPROVED
when the name contains an approved keyword and the score is at least 0.8,
REVIEW when it contains an approved keyword and the score is below 0.8,
DRAFT when (no approved keyword and) a WIP keyword is present, and
otherwise READY for score ≥ 0.9, APPROVED for ≥ 0.8, REVIEW for ≥ 0.6 and
DRAFT below 0.6 (the clauses applying in this order, as in the source). -/
theorem determine_status_clauses (name : String) (score : ℚ) :
    (hasKeyword (lowerStr name) approved_keywords = true → 8/10 ≤ score →
        determine_status name score = NodeStatus.approved) ∧
    (hasKeyword (lowerStr name) approved_keywords = true → score < 8/10 →
        determine_status name score = NodeStatus.review) ∧
    (hasKeyword (lowerStr name) approved_keywords = false →
      hasKeyword (lowerStr name) wip_keywords = true →
        determine_status name score = NodeStatus.draft) ∧
    (hasKeyword (lowerStr name) approved_keywords = false →
      hasKeyword (lowerStr name) wip_keywords = false →
        (9/10 ≤ score → determine_status name score = NodeStatus.ready) ∧
        (8/10 ≤ score → score < 9/10 →
            determine_status name score = NodeStatus.approved) ∧
        (6/10 ≤ score → score < 8/10 →
            determine_status name score = NodeStatus.review) ∧
        (score < 6/10 → determine_status name score = NodeStatus.draft)) := by
  refine ⟨fun h1 h2 => ?_, fun h1 h2 => ?_, fun h1 h2 => ?_,
    fun h1 h2 => ⟨fun h3 => ?_, fun h3 h4 => ?_, fun h3 h4 => ?_, fun h3 => ?_⟩⟩
  · simp [determine_status, h1, h2]
  · simp [determine_status, h1, not_le.mpr h2]
  · simp [determine_status, h1, h2]
  · simp [determine_status, h1, h2, h3, le_trans (by norm_num : (8:ℚ)/10 ≤ 9/10) h3]
  · simp [determine_status, h1, h2, h3, not_le.mpr h4]
  · have h5 : ¬(9:ℚ)/10 ≤ score := by intro hh; linarith
    simp [determine_status, h1, h2, h3, h5, not_le.mpr h4]
  · have h5 : ¬(9:ℚ)/10 ≤ score := by intro hh; linarith
    have h6 : ¬(8:ℚ)/10 ≤ score := by intro hh; linarith
    simp [determine_status, h1, h2, h5, h6, not_le.mpr h3]

/-- Witness for C7: the clauses applied at concrete names and scores. -/
theorem determine_status_clauses_witness :
    determine_status "approved-icon" (9/10) = NodeStatus.approved ∧
    determine_status "wip-icon" (1/2) = NodeStatus.draft :=
  ⟨(determine_status_clauses "approved-icon" (9/10)).1 (by decide) (by norm_num),
   (determine_status_clauses "wip-icon" (1/2)).2.2.1 (by decide) (by decide)⟩

/-- The `+25` naming component of `DevReadyDetector.assess_readiness`
(lines 26-30): awarded exactly when `_check_naming_convention` accepts the
name. -/
def naming_points (name : String) : ℚ :=
  if check_naming_convention name then 25 else 0

/-- C10: the naming check lowercases the node name before applying the
kebab-case regex, so the +25 naming points are awarded iff
`lowercase(name)` matches `^[a-z0-9]+(-[a-z0-9]+)*$`; in particular the
capitalized kebab name "Icon-Heart" gets the points although the raw name
does not match the regex. -/
theorem naming_points_lowercased (name : String) :
    (naming_points name = 25 ↔ kebabMatch (lowerStr name) = true) ∧
    naming_points "Icon-Heart" = 25 ∧
    kebabMatch "Icon-Heart" = false := by
  refine ⟨⟨fun h => ?_, fun h => ?_⟩, ?_, by decide⟩
  · by_cases hc : check_naming_convention name = true
    · exact hc
    · rw [naming_points, if_neg hc] at h
      norm_num at h
  · have hc : check_naming_convention name = true := h
    rw [naming_points, if_pos hc]
  · have hc : check_naming_convention "Icon-Heart" = true := by decide
    rw [naming_points, if_pos hc]

/-! ## Claim theorems: cache loading -/

/-- C9: every failure state of the cache file (missing, unreadable,
malformed) loads as the empty cache `{nodes: {}, last_export: None,
file_version: None}` (no exception escapes, by totality of `load_cache`),
and a detect run from the empty cache classifies every current node NEW. -/
theorem load_cache_failure_fresh_start :
    load_cache CacheFileState.missing = emptyCache ∧
    load_cache CacheFileState.unreadable = emptyCache ∧
    load_cache CacheFileState.malformed = emptyCache ∧
    ∀ (current : List NodeData) (fv now : String),
      ∀ r ∈ (detect_changes_scripts (load_cache CacheFileState.missing)
                current fv now).1,
        r.change_status = ChangeStatus.new := by
  refine ⟨rfl, rfl, rfl, ?_⟩
  intro current fv now r hr
  simp only [detect_changes_scripts, load_cache, deletedKeys, List.map_nil,
    List.dedup_nil, List.filter_nil, List.append_nil] at hr
  obtain ⟨d, _, rfl⟩ := List.mem_map.mp hr
  simp [mkInfoScripts, classifyNode, dictGet]

/-- A concrete current node, used by several witnesses. -/
def sampleNodeA : NodeData :=
  { id := "1", name := "icon-a", type := "FRAME", width := 16, height := 16,
    lastModified := some "2025-01-01", version := 3, path := "p", depth := 1 }

/-- Witness for C9: the fresh-start classification applied to a concrete
one-node list. -/
theorem load_cache_failure_fresh_start_witness :
    (mkInfoScripts emptyCache sampleNodeA).change_status = ChangeStatus.new :=
  load_cache_failure_fresh_start.2.2.2 [sampleNodeA] "v" "t"
    (mkInfoScripts emptyCache sampleNodeA) (by decide)

/-! ## Claim theorems: filename sanitization -/

theorem mem_rstripChars {p : Char → Bool} {l : List Char} {c : Char}
    (h : c ∈ rstripChars p l) : c ∈ l := by
  unfold rstripChars at h
  rw [List.mem_reverse] at h
  exact List.mem_reverse.mp ((List.dropWhile_sublist p).subset h)

theorem mem_stripChars {p : Char → Bool} {l : List Char} {c : Char}
    (h : c ∈ stripChars p l) : c ∈ l := by
  unfold stripChars at h
  rw [List.mem_reverse] at h
  exact (List.dropWhile_sublist p).subset
    (List.mem_reverse.mp ((List.dropWhile_sublist p).subset h))

theorem length_rstripChars_le (p : Char → Bool) (l : List Char) :
    (rstripChars p l).length ≤ l.length := by
  unfold rstripChars
  calc ((l.reverse.dropWhile p).reverse).length
      = (l.reverse.dropWhile p).length := List.length_reverse _
    _ ≤ l.reverse.length := (List.dropWhile_sublist p).length_le
    _ = l.length := List.length_reverse _

theorem collapseDashRuns_mem {l : List Char} {c : Char}
    (h : c ∈ collapseDashRuns l) : c = '-' ∨ c ∈ l := by
  induction l with
  | nil => simp [collapseDashRuns] at h
  | cons a rest ih =>
    cases rest with
    | nil =>
      by_cases ha : isDashUnd a = true <;> simp [collapseDashRuns, ha] at h
      · exact Or.inl h
      · exact Or.inr (by simp [h])
    | cons b tl =>
      by_cases ha : isDashUnd a = true
      · by_cases hb : isDashUnd b = true
        · simp [collapseDashRuns, ha, hb] at h
          rcases ih h with h' | h'
          · exact Or.inl h'
          · exact Or.inr (List.mem_cons_of_mem a h')
        · simp [collapseDashRuns, ha, hb] at h
          rcases h with rfl | h'
          · exact Or.inl rfl
          · rcases ih h' with h'' | h''
            · exact Or.inl h''
            · exact Or.inr (List.mem_cons_of_mem a h'')
      · simp [collapseDashRuns, ha] at h
        rcases h with rfl | h'
        · exact Or.inr (List.mem_cons_self _ _)
        · rcases ih h' with h'' | h''
          · exact Or.inl h''
          · exact Or.inr (List.mem_cons_of_mem a h'')

theorem charPipeline_good (x : Char) :
    (if lowerChar (if invalid_chars.contains x then '_' else x) = ' '
       then '-' else lowerChar (if invalid_chars.contains x then '_' else x))
        ∉ invalid_chars ∧
    ¬(65 ≤ (if lowerChar (if invalid_chars.contains x then '_' else x) = ' '
              then '-'
              else lowerChar
                (if invalid_chars.contains x then '_' else x)).toNat ∧
        (if lowerChar (if invalid_chars.contains x then '_' else x) = ' '
           then '-'
           else lowerChar
             (if invalid_chars.contains x then '_' else x)).toNat ≤ 90) := by
  have hy_inv : (if invalid_chars.contains x then '_' else x) ∉ invalid_chars := by
    split
    · decide
    · rename_i hxc
      intro hmem
      exact hxc (List.elem_iff.mpr hmem)
  have h2 := lowerChar_not_invalid hy_inv
  have h3 := lowerChar_not_upper (if invalid_chars.contains x then '_' else x)
  by_cases hz : lowerChar (if invalid_chars.contains x then '_' else x) = ' '
  · rw [if_pos hz]
    exact ⟨by decide, by decide⟩
  · rw [if_neg hz]
    exact ⟨h2, h3⟩

theorem stage2_good (name : String) :
    ∀ c ∈ ((name.data.map
          (fun c => if invalid_chars.contains c then '_' else c)).map
            lowerChar).map (fun c => if c = ' ' then '-' else c),
      c ∉ invalid_chars ∧ ¬(65 ≤ c.toNat ∧ c.toNat ≤ 90) := by
  intro c hc
  simp only [List.map_map] at hc
  obtain ⟨x, _, rfl⟩ := List.mem_map.mp hc
  exact charPipeline_good x

theorem final_stage (l5 : List Char)
    (hchars : ∀ c ∈ l5, c ∉ invalid_chars ∧ ¬(65 ≤ c.toNat ∧ c.toNat ≤ 90))
    (hlen : l5.length ≤ 100) :
    (∀ c ∈ (if l5.isEmpty then "unnamed" else (⟨l5⟩ : String)).data,
        c ∉ invalid_chars) ∧
    (∀ c ∈ (if l5.isEmpty then "unnamed" else (⟨l5⟩ : String)).data,
        ¬(65 ≤ c.toNat ∧ c.toNat ≤ 90)) ∧
    (if l5.isEmpty then "unnamed" else (⟨l5⟩ : String)).data.length ≤ 100 ∧
    (if l5.isEmpty then "unnamed" else (⟨l5⟩ : String)) ≠ "" := by
  by_cases he : l5.isEmpty = true
  · rw [if_pos he]
    exact ⟨by decide, by decide, by decide, by decide⟩
  · rw [if_neg he]
    refine ⟨fun c hc => (hchars c hc).1, fun c hc => (hchars c hc).2, hlen, ?_⟩
    intro hEq
    apply he
    have hdata : l5 = ("" : String).data := congrArg String.data hEq
    rw [List.isEmpty_iff]
    exact hdata

theorem sanitizeTrunc_good (l4 : List Char)
    (hchars : ∀ c ∈ l4, c ∉ invalid_chars ∧ ¬(65 ≤ c.toNat ∧ c.toNat ≤ 90)) :
    (∀ c ∈ (sanitizeTrunc l4).data, c ∉ invalid_chars) ∧
    (∀ c ∈ (sanitizeTrunc l4).data, ¬(65 ≤ c.toNat ∧ c.toNat ≤ 90)) ∧
    (sanitizeTrunc l4).data.length ≤ 100 ∧
    sanitizeTrunc l4 ≠ "" := by
  simp only [sanitizeTrunc]
  by_cases h100 : 100 < l4.length
  · simp only [gt_iff_lt, h100, if_true]
    exact final_stage (rstripChars isDashUnd (l4.take 100))
      (fun c hc => hchars c (List.take_subset _ _ (mem_rstripChars hc)))
      (le_trans (length_rstripChars_le _ _)
        (by rw [List.length_take]; exact inf_le_left))
  · simp only [gt_iff_lt, h100, if_false]
    exact final_stage l4 hchars (by omega)

/-- C8: for every input string, `sanitize_filename` returns a string with
no character from `<>:"/\|?*`, no (ASCII) uppercase letter, length at most
100, and which is non-empty thanks to the `"unnamed"` fallback; the
claim's example "Button / Primary*.svg" is covered by the universal
statement (see the witness). -/
theorem sanitize_filename_properties (name : String) :
    (∀ c ∈ (sanitize_filename name).data, c ∉ invalid_chars) ∧
    (∀ c ∈ (sanitize_filename name).data, ¬(65 ≤ c.toNat ∧ c.toNat ≤ 90)) ∧
    (sanitize_filename name).data.length ≤ 100 ∧
    sanitize_filename name ≠ "" := by
  have h4 : ∀ c ∈ stripChars isDashUnd (collapseDashRuns
      (((name.data.map
            (fun c => if invalid_chars.contains c then '_' else c)).map
          lowerChar).map (fun c => if c = ' ' then '-' else c))),
      c ∉ invalid_chars ∧ ¬(65 ≤ c.toNat ∧ c.toNat ≤ 90) := by
    intro c hc
    rcases collapseDashRuns_mem (mem_stripChars hc) with rfl | hmem
    · exact ⟨by decide, by decide⟩
    · exact stage2_good name c hmem
  exact sanitizeTrunc_good _ h4

/-- Witness for C8: the properties at the claim's concrete input
`"Button / Primary*.svg"`, with the membership hypotheses discharged at
the concrete character 'b' of the result. -/
theorem sanitize_filename_properties_witness :
    'b' ∉ invalid_chars ∧
    ¬(65 ≤ 'b'.toNat ∧ 'b'.toNat ≤ 90) ∧
    (sanitize_filename "Button / Primary*.svg").data.length ≤ 100 ∧
    sanitize_filename "Button / Primary*.svg" ≠ "" :=
  ⟨(sanitize_filename_properties "Button / Primary*.svg").1 'b' (by decide),
   (sanitize_filename_properties "Button / Primary*.svg").2.1 'b' (by decide),
   (sanitize_filename_properties "Button / Primary*.svg").2.2.1,
   (sanitize_filename_properties "Button / Primary*.svg").2.2.2⟩

/-! ## Claim theorems: pattern filtering -/

/-- The keep-predicate of `apply_naming_filters` folded into one Boolean:
include patterns absent or matched (start-anchored), and no exclude pattern
matched. -/
def filterKeep (name : String) (f : Filters) : Bool :=
  (f.include_patterns.isEmpty ||
      matches_pattern name f.include_patterns f.case_sensitive) &&
  !matches_pattern name f.exclude_patterns f.case_sensitive

/-- The keep-condition in the (amended) claim's wording, as a
proposition: the include list is empty or some include pattern matches at
the start of the name, and no exclude pattern matches at the start. -/
def keepProp (name : String) (f : Filters) : Prop :=
  (f.include_patterns = [] ∨
    ∃ p ∈ f.include_patterns,
      wMatchFromStart (normChars f.case_sensitive p)
        (normChars f.case_sensitive name) = true) ∧
  ∀ p ∈ f.exclude_patterns,
    wMatchFromStart (normChars f.case_sensitive p)
      (normChars f.case_sensitive name) = false

/-- A concrete node for the filter claims. -/
def filterNode (i nm : String) : NodeInfo :=
  { id := i, name := nm, type := "FRAME", width := 0, height := 0,
    last_modified := none, version := 0, path := "", depth := 0,
    status := NodeStatus.unknown, change_status := ChangeStatus.new,
    dev_ready_score := 0, issues := [] }

/-- Counterexample for C5: the filter does NOT implement glob-style
(fully anchored) matching, because `_matches_pattern` builds a regex with
no `$` and uses `re.match`, which only anchors at the start.  With node
"temp_draft" and exclude pattern "tem", the code excludes the node while
the claim's glob semantics would keep it (fnmatch("temp_draft", "tem") is
false). -/
theorem apply_naming_filters_glob_cex :
    apply_naming_filters [filterNode "1" "temp_draft"]
      ⟨[], ["tem"], false⟩ = [] ∧
    apply_filters_globSpec [filterNode "1" "temp_draft"] [] ["tem"] false =
      [filterNode "1" "temp_draft"] ∧
    apply_naming_filters [filterNode "1" "temp_draft"] ⟨[], ["tem"], false⟩ ≠
      apply_filters_globSpec [filterNode "1" "temp_draft"] [] ["tem"] false := by
  refine ⟨?_, ?_, ?_⟩ <;> decide

/-- C5 (amended: matching is anchored at the start of the name only, for
patterns of literal characters and the wildcards `*`/`?`): the filter
returns exactly the in-order sublist of nodes whose name satisfies (no
include patterns, or some include pattern matches a prefix of the name)
and no exclude pattern matches a prefix; on the claim's 3-node example the
result is exactly the nodes "1" and "2" in that order. -/
theorem apply_naming_filters_spec :
    (∀ (nodes : List NodeInfo) (f : Filters),
        apply_naming_filters nodes f =
          nodes.filter (fun n => filterKeep n.name f)) ∧
    (∀ (name : String) (f : Filters),
        filterKeep name f = true ↔ keepProp name f) ∧
    (apply_naming_filters
        [filterNode "1" "svg_exporter_button", filterNode "2" "icon_home",
          filterNode "3" "temp_draft"]
        ⟨["svg_exporter_*", "icon_*"], ["temp_*"], false⟩).map
        (fun n => n.id) = ["1", "2"] := by
  refine ⟨?_, ?_, by decide⟩
  · intro nodes f
    obtain ⟨incl, excl, cs⟩ := f
    unfold apply_naming_filters filterKeep
    apply List.filter_congr
    intro n _
    cases excl with
    | nil =>
      simp [matches_pattern, Bool.not_and, Bool.not_not]
    | cons e es =>
      simp [Bool.not_and, Bool.not_not]
  · intro name f
    obtain ⟨incl, excl, cs⟩ := f
    unfold filterKeep keepProp matches_pattern
    simp [List.isEmpty_iff, List.any_eq_true, Bool.not_eq_true',
      List.any_eq_false]

/-! ## Claim theorems: node-id resolver -/

/-- Counterexample for C6: for the dash-format input "431-22256" the
candidate list does NOT contain the parent truncation "431": the parent
branch tests `":" in node_id` on the ORIGINAL id, which contains no colon
(the candidates are the original, its colon form, and the root "0:1"; the
source's final `list(set(...))` preserves exactly this membership). -/
theorem get_alternative_formats_cex :
    get_alternative_formats "431-22256" = ["431-22256", "431:22256", "0:1"] ∧
    "431" ∉ get_alternative_formats "431-22256" := by
  refine ⟨?_, ?_⟩ <;> decide

theorem tryAttempts_eq_head (α : Type) (fetch : String → Option α)
    (l : List String) :
    tryAttempts fetch l =
      (l.filterMap (fun a => (fetch a).map (fun d => (a, d)))).head? := by
  induction l with
  | nil => rfl
  | cons a rest ih =>
    cases h : fetch a <;> simp [tryAttempts, h, ih, List.filterMap_cons]

/-- C6 (amended: the parent truncation is generated only when the original
id contains a colon — so "431-22256" yields exactly the candidate set
{"431-22256", "431:22256", "0:1"}, without "431" — and the `list(set(...))`
dedup leaves the attempt order unspecified): the resolver takes at most 5
candidates, tries them sequentially against the single-node fetch, returns
the first success, and returns None when all candidates fail. -/
theorem resolve_with_fallbacks_spec :
    (∀ (α : Type) (fetch : String → Option α) (candidates : List String),
        resolve_node_with_fallbacks fetch candidates 5 =
          ((candidates.take 5).filterMap
              (fun a => (fetch a).map (fun d => (a, d)))).head?) ∧
    (∀ (α : Type) (fetch : String → Option α) (candidates : List String)
        (node_id : String),
        (∀ x, x ∈ candidates ↔ x ∈ get_alternative_formats node_id) →
        (∀ a ∈ get_alternative_formats node_id, fetch a = none) →
        resolve_node_with_fallbacks fetch candidates 5 = none) ∧
    (∀ x, x ∈ get_alternative_formats "431-22256" ↔
        x ∈ ["431-22256", "431:22256", "0:1"]) := by
  refine ⟨?_, ?_, ?_⟩
  · intro α fetch candidates
    exact tryAttempts_eq_head α fetch (candidates.take 5)
  · intro α fetch candidates node_id hmem hfail
    rw [resolve_node_with_fallbacks, tryAttempts_eq_head]
    have : (candidates.take 5).filterMap
        (fun a => (fetch a).map (fun d => (a, d))) = [] := by
      rw [List.filterMap_eq_nil_iff]
      intro a ha
      rw [hfail a ((hmem a).mp (List.take_subset _ _ ha))]
      rfl
    rw [this]
    rfl
  · have e : get_alternative_formats "431-22256" =
        ["431-22256", "431:22256", "0:1"] := by decide
    intro x
    rw [e]

/-- Witness for C6: all-failing fetch over the candidate set of
"431-22256" resolves to None. -/
theorem resolve_with_fallbacks_spec_witness :
    resolve_node_with_fallbacks (fun _ => (none : Option Nat))
      (get_alternative_formats "431-22256") 5 = none :=
  resolve_with_fallbacks_spec.2.1 Nat (fun _ => none)
    (get_alternative_formats "431-22256") "431-22256"
    (fun _ => Iff.rfl) (fun _ _ => rfl)

/-! ## Claim theorems: change detection -/

theorem classifyNode_ne_deleted (cache : CacheData) (d : NodeData) :
    classifyNode cache d ≠ ChangeStatus.deleted := by
  cases hE : dictGet cache.nodes d.id with
  | none => simp [classifyNode, hE]
  | some c =>
    simp only [classifyNode, hE]
    split <;> simp

/-- The per-node classification in the claim's wording: the pair
`(lastModified, version)` compared against the cached pair. -/
def claimedStatus (cache : CacheData) (d : NodeData) : ChangeStatus :=
  match dictGet cache.nodes d.id with
  | none => ChangeStatus.new
  | some c =>
      if (d.lastModified, d.version) = (c.last_modified, c.version) then
        ChangeStatus.unchanged
      else ChangeStatus.modified

theorem classifyNode_eq_claimed (cache : CacheData) (d : NodeData) :
    classifyNode cache d = claimedStatus cache d := by
  unfold classifyNode claimedStatus
  cases dictGet cache.nodes d.id with
  | none => rfl
  | some c => simp [Prod.mk.injEq]

theorem find?_eq_of_unique {α : Type} (p : α → Bool) (l : List α) (a : α)
    (ha : a ∈ l) (hpa : p a = true)
    (huniq : ∀ b ∈ l, p b = true → b = a) : l.find? p = some a := by
  induction l with
  | nil => exact absurd ha (List.not_mem_nil a)
  | cons x t ih =>
    by_cases hx : p x = true
    · have hxa : x = a := huniq x (List.mem_cons_self x t) hx
      rw [List.find?_cons_of_pos _ hx, hxa]
    · rw [List.find?_cons_of_neg _ (by simpa using hx)]
      apply ih
      · rcases List.mem_cons.mp ha with h | h
        · subst h; exact absurd hpa hx
        · exact h
      · intro b hb hpb
        exact huniq b (List.mem_cons_of_mem x hb) hpb

theorem dictGet_save_cache (nodes : List NodeInfo) (fv now k : String)
    (hnd : (nodes.map (fun n => n.id)).Nodup) (n : NodeInfo)
    (hn : n ∈ nodes) (hk : n.id = k) :
    dictGet (save_cache nodes fv now).nodes k = some (cacheEntryOf n) := by
  unfold save_cache dictGet
  rw [List.find?_map]
  have hfind : nodes.reverse.find?
      ((fun p : String × CachedNode => p.1 == k) ∘
        fun n => (n.id, cacheEntryOf n)) = some n := by
    apply find?_eq_of_unique _ _ n (List.mem_reverse.mpr hn)
    · simp [Function.comp, hk]
    · intro b hb hpb
      apply List.inj_on_of_nodup_map hnd (List.mem_reverse.mp hb) hn
      have hb' : (b.id == k) = true := hpb
      rw [eq_of_beq hb', hk]
  rw [hfind]
  rfl

/-- C1: `detect_changes` (scripts exporter) classifies each current node by
cache lookup — absent id NEW, present id with equal
`(lastModified, version)` pair UNCHANGED, otherwise MODIFIED — and for each
cached id with no corresponding current node it synthesizes a DELETED
record with zeroed width/height and type the literal `"DELETED"`, included
in the returned node list. -/
theorem detect_changes_classification (cache : CacheData)
    (current : List NodeData) (fv now : String) :
    (∀ i, (h : i < current.length) →
        ((detect_changes_scripts cache current fv now).1).get? i =
            some (mkInfoScripts cache (current.get ⟨i, h⟩)) ∧
          (mkInfoScripts cache (current.get ⟨i, h⟩)).id =
            (current.get ⟨i, h⟩).id ∧
          (mkInfoScripts cache (current.get ⟨i, h⟩)).change_status =
            claimedStatus cache (current.get ⟨i, h⟩)) ∧
    (∀ k ∈ cache.nodes.map Prod.fst, k ∉ current.map (fun d => d.id) →
        ∃ r ∈ (detect_changes_scripts cache current fv now).1,
          r.id = k ∧ r.change_status = ChangeStatus.deleted ∧
          r.width = 0 ∧ r.height = 0 ∧ r.type = "DELETED") := by
  constructor
  · intro i h
    refine ⟨?_, rfl, classifyNode_eq_claimed cache _⟩
    show (current.map (mkInfoScripts cache) ++
        (deletedKeys cache (current.map (fun d => d.id))).map
          (mkDeletedInfo cache)).get? i =
      some (mkInfoScripts cache (current.get ⟨i, h⟩))
    rw [List.get?_append (by simpa using h), List.get?_map,
      List.get?_eq_get h]
    rfl
  · intro k hk hnk
    refine ⟨mkDeletedInfo cache k, ?_, rfl, rfl, rfl, rfl, rfl⟩
    show mkDeletedInfo cache k ∈
      current.map (mkInfoScripts cache) ++
        (deletedKeys cache (current.map (fun d => d.id))).map
          (mkDeletedInfo cache)
    apply List.mem_append_right
    apply List.mem_map_of_mem
    unfold deletedKeys
    rw [List.mem_filter]
    refine ⟨List.mem_dedup.mpr hk, ?_⟩
    have hc : (current.map (fun d => d.id)).contains k = false := by
      cases hcontains : (current.map (fun d => d.id)).contains k
      · rfl
      · exact absurd (List.elem_iff.mp hcontains) hnk
    rw [hc]
    rfl

/-- Witness for C1: a one-node current list against a cache holding one
stale id "9": position 0 is classified, and a DELETED record for "9" is in
the returned list. -/
def staleCache : CacheData :=
  { nodes := [("9",
      { name := "old", last_modified := some "x", version := 1,
        exported_at := none, dev_ready_score := 0, status := "unknown",
        svg_size := none })],
    last_export := none, file_version := none }

/-- Witness for C1 (see `staleCache`). -/
theorem detect_changes_classification_witness :
    ((detect_changes_scripts staleCache [sampleNodeA] "v" "t").1).get? 0 =
      some (mkInfoScripts staleCache sampleNodeA) ∧
    ∃ r ∈ (detect_changes_scripts staleCache [sampleNodeA] "v" "t").1,
      r.id = "9" ∧ r.change_status = ChangeStatus.deleted ∧
      r.width = 0 ∧ r.height = 0 ∧ r.type = "DELETED" :=
  ⟨((detect_changes_classification staleCache [sampleNodeA] "v" "t").1 0
      (by decide)).1,
   (detect_changes_classification staleCache [sampleNodeA] "v" "t").2 "9"
      (by decide) (by decide)⟩

/-- C2: for every cache state and current-node list, the statistics of
`detect_changes` satisfy `new + modified + unchanged = len(current_nodes)`
and `deleted = |cached_ids − current_ids|` (set-difference cardinality). -/
theorem detect_changes_stats_conservation (cache : CacheData)
    (current : List NodeData) (fv now : String) :
    ((detect_changes_scripts cache current fv now).2.1).new +
        ((detect_changes_scripts cache current fv now).2.1).modified +
        ((detect_changes_scripts cache current fv now).2.1).unchanged =
      current.length ∧
    ((detect_changes_scripts cache current fv now).2.1).deleted =
      ((cache.nodes.map Prod.fst).toFinset \
          (current.map (fun d => d.id)).toFinset).card := by
  constructor
  · show (current.map (mkInfoScripts cache)).countP
          (fun n => n.change_status == ChangeStatus.new) +
        (current.map (mkInfoScripts cache)).countP
          (fun n => n.change_status == ChangeStatus.modified) +
        (current.map (mkInfoScripts cache)).countP
          (fun n => n.change_status == ChangeStatus.unchanged) =
      current.length
    rw [List.countP_map, List.countP_map, List.countP_map]
    induction current with
    | nil => rfl
    | cons d t ih =>
      simp only [List.countP_cons, List.length_cons, Function.comp]
      cases hcd : classifyNode cache d with
      | new => simp [mkInfoScripts, hcd]; omega
      | modified => simp [mkInfoScripts, hcd]; omega
      | unchanged => simp [mkInfoScripts, hcd]; omega
      | deleted => exact absurd hcd (classifyNode_ne_deleted cache d)
  · show (deletedKeys cache (current.map (fun d => d.id))).length = _
    have hnodup : (deletedKeys cache (current.map (fun d => d.id))).Nodup :=
      (List.nodup_dedup _).filter _
    rw [← List.toFinset_card_of_nodup hnodup]
    congr 1
    ext x
    rw [List.mem_toFinset, Finset.mem_sdiff, List.mem_toFinset,
      List.mem_toFinset]
    unfold deletedKeys
    rw [List.mem_filter, List.mem_dedup]
    constructor
    · rintro ⟨hx, hb⟩
      refine ⟨hx, fun hmem => ?_⟩
      rw [show (current.map (fun d => d.id)).contains x = true from
        List.elem_iff.mpr hmem] at hb
      simp at hb
    · rintro ⟨hx, hnm⟩
      refine ⟨hx, ?_⟩
      have hc : (current.map (fun d => d.id)).contains x = false := by
        cases hcontains : (current.map (fun d => d.id)).contains x
        · rfl
        · exact absurd (List.elem_iff.mp hcontains) hnm
      rw [hc]
      rfl

/-- C3: the scripts exporter's `detect_changes` persists the cache at the
end of the detecting run itself (the cache it returns IS
`_save_cache(updated_nodes)` — no export step is involved in producing
it), and in that persisted cache every current node's entry already
carries the current `(lastModified, version)` pair, whether or not any
export happens afterwards. -/
theorem detect_changes_persists_cache (cache : CacheData)
    (current : List NodeData) (fv now : String)
    (hnd : (current.map (fun d => d.id)).Nodup)
    (d : NodeData) (hd : d ∈ current) :
    (detect_changes_scripts cache current fv now).2.2 =
        save_cache ((detect_changes_scripts cache current fv now).1) fv now ∧
    ∃ e, dictGet ((detect_changes_scripts cache current fv now).2.2).nodes
          d.id = some e ∧
        e.last_modified = d.lastModified ∧ e.version = d.version := by
  constructor
  · rfl
  · refine ⟨cacheEntryOf (mkInfoScripts cache d), ?_, rfl, rfl⟩
    show dictGet (save_cache
        (current.map (mkInfoScripts cache) ++
          (deletedKeys cache (current.map (fun d => d.id))).map
            (mkDeletedInfo cache)) fv now).nodes d.id = _
    apply dictGet_save_cache _ fv now d.id ?_ (mkInfoScripts cache d) ?_ rfl
    · have e1 : ((fun n : NodeInfo => n.id) ∘ mkInfoScripts cache) =
          fun d : NodeData => d.id := rfl
      have e2 : ((fun n : NodeInfo => n.id) ∘ mkDeletedInfo cache) =
          fun k : String => k := rfl
      rw [List.map_append, List.nodup_append]
      refine ⟨?_, ?_, ?_⟩
      · simpa [List.map_map, e1] using hnd
      · have hdel : (deletedKeys cache (current.map (fun d => d.id))).Nodup :=
          (List.nodup_dedup _).filter _
        simpa [List.map_map, e2] using hdel
      · intro a ha hb
        have ha' : a ∈ current.map (fun d => d.id) := by
          simpa [List.map_map, e1] using ha
        have hb' : a ∈ deletedKeys cache (current.map (fun d => d.id)) := by
          simpa [List.map_map, e2] using hb
        unfold deletedKeys at hb'
        rw [List.mem_filter] at hb'
        have hbb := hb'.2
        rw [show (current.map (fun d => d.id)).contains a = true from
          List.elem_iff.mpr ha'] at hbb
        simp at hbb
    · exact List.mem_append_left _ (List.mem_map_of_mem _ hd)

/-- Witness for C3 at a concrete cache and node list. -/
theorem detect_changes_persists_cache_witness :
    ∃ e, dictGet
          ((detect_changes_scripts staleCache [sampleNodeA] "v" "t").2.2).nodes
          "1" = some e ∧
        e.last_modified = some "2025-01-01" ∧ e.version = 3 :=
  (detect_changes_persists_cache staleCache [sampleNodeA] "v" "t"
    (by decide) sampleNodeA (by decide)).2

/-- Two current nodes sharing the id "1" with different lastModified. -/
def dupNodeA : NodeData :=
  { id := "1", name := "n", type := "FRAME", width := 0, height := 0,
    lastModified := some "a", version := 0, path := "", depth := 0 }

/-- See `dupNodeA`. -/
def dupNodeB : NodeData :=
  { id := "1", name := "n", type := "FRAME", width := 0, height := 0,
    lastModified := some "b", version := 0, path := "", depth := 0 }

/-- Counterexample for C4: with duplicate ids in the current list the
claim fails — detect, save the returned nodes, detect again: the second
run classifies the first copy MODIFIED (the dict comprehension in
`_save_cache` kept only the last copy's pair), not UNCHANGED. -/
theorem second_detect_unchanged_cex :
    ((detect_changes_server
          (save_cache ((detect_changes_server emptyCache
              [dupNodeA, dupNodeB] "v").1) "v" "t")
          [dupNodeA, dupNodeB] "v").1.map (fun n => n.change_status)) =
        [ChangeStatus.modified, ChangeStatus.unchanged] ∧
      ChangeStatus.modified ≠ ChangeStatus.unchanged := by
  refine ⟨by decide, by decide⟩

/-- C4 (amended: provided the current nodes have pairwise-distinct ids):
after `detect_changes` and `_save_cache` of the returned nodes, a second
`detect_changes` on the same unchanged current-node list classifies every
node of its returned list UNCHANGED, for every starting cache state. -/
theorem second_detect_all_unchanged (cache : CacheData)
    (current : List NodeData) (fv1 fv2 fv3 now : String)
    (hnd : (current.map (fun d => d.id)).Nodup) :
    ∀ r ∈ (detect_changes_server
            (save_cache ((detect_changes_server cache current fv1).1) fv2 now)
            current fv3).1,
      r.change_status = ChangeStatus.unchanged := by
  intro r hr
  have hr' : r ∈ current.map (mkInfoServer
      (save_cache ((detect_changes_server cache current fv1).1) fv2 now)) := hr
  obtain ⟨d, hd, rfl⟩ := List.mem_map.mp hr'
  show classifyNode
    (save_cache ((detect_changes_server cache current fv1).1) fv2 now) d =
    ChangeStatus.unchanged
  have hnd1 : (((detect_changes_server cache current fv1).1).map
      (fun n => n.id)).Nodup := by
    have e1 : ((fun n : NodeInfo => n.id) ∘ mkInfoServer cache) =
        fun d : NodeData => d.id := rfl
    show ((current.map (mkInfoServer cache)).map (fun n => n.id)).Nodup
    simpa [List.map_map, e1] using hnd
  have hmem1 : mkInfoServer cache d ∈ (detect_changes_server cache current fv1).1 :=
    List.mem_map_of_mem _ hd
  have hlk := dictGet_save_cache ((detect_changes_server cache current fv1).1)
    fv2 now d.id hnd1 (mkInfoServer cache d) hmem1 rfl
  simp [classifyNode, hlk, cacheEntryOf, mkInfoServer]

/-- Witness for C4's amended theorem at a concrete one-node list. -/
theorem second_detect_all_unchanged_witness :
    (mkInfoServer
        (save_cache ((detect_changes_server emptyCache [sampleNodeA] "v").1)
          "v" "t") sampleNodeA).change_status = ChangeStatus.unchanged :=
  second_detect_all_unchanged emptyCache [sampleNodeA] "v" "v" "v" "t"
    (by decide) _ (List.mem_map_of_mem _ (List.mem_singleton.mpr rfl))
